import Mathlib

/-!
Shallow embedding of the snekbox core (src/snekbox/snekio.py and
src/snekbox/memfs.py) and proofs about its specification.

Conventions of the embedding:
* Python `bytes` values are `List Nat` (each entry a byte value).
* Python exceptions are the constructors of `Snekbox.Err`; fallible
  operations return `Except Err _`.
* The transport dictionary is a structure holding the four string keys
  that appear in the source (`name`, `path`, `size`, `content`), each
  `Option`-valued to model key absence.
* `pathlib.PurePosixPath` parsing (`Path(name).parts`,
  `Path(name).is_absolute()`) is embedded by `pathParts` / `is_absolute`.
* `base64.b64decode` (non-strict mode, as called by the source) is
  embedded by `b64decode`, following CPython's `binascii.a2b_base64`
  loop: characters outside the alphabet are discarded, padding ends the
  decode once a quad is completable, and a leftover partial quad is a
  `binascii.Error`.
-/

deriving instance DecidableEq for Except

namespace Snekbox

/-- Exception kinds raised by the embedded code.  `illegalPath` and
`parsing` are the `AttachmentError` subclasses declared in snekio.py;
the others model builtin Python exceptions that can escape the code. -/
inductive Err where
  | keyError      -- KeyError (missing dict key)
  | indexError    -- IndexError (parts[0] on an empty tuple)
  | typeError     -- TypeError (call with wrong arity)
  | illegalPath   -- snekio.IllegalPathError
  | parsing       -- snekio.ParsingError
  | b64Error      -- binascii.Error from b64decode
  | valueError    -- ValueError (non-ascii input to b64decode)
  | runtimeError  -- RuntimeError (name exhaustion in __enter__)
  deriving DecidableEq, Repr

/-- Whether an exception kind is an `AttachmentError` (snekio.py lines
12-21: only `ParsingError` and `IllegalPathError` subclass it). -/
def isAttachmentError : Err → Bool
  | .illegalPath => true
  | .parsing => true
  | _ => false

/-! ### PurePosixPath parsing -/

/-- Whether the second list is an initial run of the first. -/
def startsWithChars : List Char → List Char → Bool
  | _, [] => true
  | [], _ :: _ => false
  | c :: cs, p :: ps => c = p && startsWithChars cs ps

/-- `PurePosixPath(s).is_absolute()`: the path starts with a slash. -/
def is_absolute (s : String) : Bool :=
  match s.toList with
  | '/' :: _ => true
  | _ => false

/-- The root component of an absolute POSIX path: exactly two leading
slashes keep the `"//"` root, otherwise the root is `"/"`. -/
def pathRoot (s : String) : String :=
  match s.toList with
  | '/' :: '/' :: '/' :: _ => "/"
  | '/' :: '/' :: _ => "//"
  | _ => "/"

/-- Split a character list on `'/'`, keeping empty pieces (the
behaviour of splitting a string on a single-character separator). -/
def splitSlash : List Char → List Char → List String
  | [], cur => [String.mk cur.reverse]
  | c :: cs, cur =>
    if c = '/' then String.mk cur.reverse :: splitSlash cs []
    else splitSlash cs (c :: cur)

/-- `PurePosixPath(s).parts`: split on `/`, dropping empty segments and
lone-dot segments; an absolute path contributes its root as the first
part. -/
def pathParts (s : String) : List String :=
  let rel := (splitSlash s.toList []).filter (fun p => p ≠ "" && p ≠ ".")
  if is_absolute s then pathRoot s :: rel else rel

/-! ### base64 -/

/-- The standard base64 alphabet, index to character. -/
def b64chars : List Char :=
  "ABCDEFGHIJKLMNOPQRSTUVWXYZabcdefghijklmnopqrstuvwxyz0123456789+/".toList

/-- Index of a character in a character list. -/
def charIndex : List Char → Char → Option Nat
  | [], _ => none
  | a :: as, c => if c = a then some 0 else (charIndex as c).map (· + 1)

/-- `table_a2b_base64`: the 6-bit value of a base64 alphabet character,
`none` for characters outside the alphabet. -/
def b64charDecode (c : Char) : Option Nat := charIndex b64chars c

/-- The character for a 6-bit value (used by `b64encode`). -/
def b64charEncode (n : Nat) : Char := b64chars.getD n 'A'

/-- CPython `binascii.a2b_base64` (non-strict): state machine over the
input characters.  `quad` is the position inside the current 4-character
group, `left` the pending bits, `pads` the consecutive padding count,
`acc` the output bytes in reverse.  `'='` completing a quad ends the
decode; characters outside the alphabet are discarded; a leftover
partial quad at the end is an error (`none`). -/
def a2b_base64 : List Char → Nat → Nat → Nat → List Nat → Option (List Nat)
  | [], quad, _, _, acc => if quad = 0 then some acc.reverse else none
  | c :: cs, quad, left, pads, acc =>
    if c = '=' then
      if 2 ≤ quad ∧ 4 ≤ quad + (pads + 1) then some acc.reverse
      else a2b_base64 cs quad left (if 2 ≤ quad then pads + 1 else pads) acc
    else
      match b64charDecode c with
      | none => a2b_base64 cs quad left pads acc
      | some v =>
        match quad with
        | 0 => a2b_base64 cs 1 v 0 acc
        | 1 => a2b_base64 cs 2 (v % 16) 0 ((left * 4 + v / 16) :: acc)
        | 2 => a2b_base64 cs 3 (v % 4) 0 ((left * 16 + v / 4) :: acc)
        | _ => a2b_base64 cs 0 0 0 ((left * 64 + v) :: acc)

/-- `base64.b64decode` on a `str` argument: the string is first encoded
as ascii (non-ascii raises `ValueError`), then run through
`a2b_base64`; a partial final quad raises `binascii.Error`. -/
def b64decode (s : String) : Except Err (List Nat) :=
  if s.toList.all (fun c => c.toNat < 128) then
    match a2b_base64 s.toList 0 0 0 [] with
    | some bs => .ok bs
    | none => .error .b64Error
  else .error .valueError

/-- Encode a byte list as base64 characters, three bytes to four
characters, padding the final group with `'='`. -/
def b2a_base64 : List Nat → List Char
  | [] => []
  | [b1] =>
    [b64charEncode (b1 / 4), b64charEncode (b1 % 4 * 16), '=', '=']
  | [b1, b2] =>
    [b64charEncode (b1 / 4), b64charEncode (b1 % 4 * 16 + b2 / 16),
     b64charEncode (b2 % 16 * 4), '=']
  | b1 :: b2 :: b3 :: bs =>
    b64charEncode (b1 / 4) :: b64charEncode (b1 % 4 * 16 + b2 / 16) ::
    b64charEncode (b2 % 16 * 4 + b3 / 64) :: b64charEncode (b3 % 64) ::
    b2a_base64 bs

/-- `base64.b64encode` followed by `.decode("ascii")`, as in
`to_dict`. -/
def b64encode (bs : List Nat) : String := String.mk (b2a_base64 bs)

/-! ### snekio.FileAttachment -/

/-- The dual content representation of an attachment: the dataclass is
generic over `str` and `bytes` content. -/
inductive Content where
  | text (s : String)
  | binary (bs : List Nat)
  deriving DecidableEq, Repr

/-- snekio.FileAttachment: a file attachment. -/
structure FileAttachment where
  path : String
  content : Content
  deriving DecidableEq, Repr

/-- The transport dictionary: the four string keys used anywhere in the
source, each optional to model absence of the key. -/
structure TransportDict where
  name : Option String := none
  path : Option String := none
  size : Option Nat := none
  content : Option String := none
  deriving DecidableEq, Repr

/-- A path segment consisting solely of dot characters:
`set(part) == {"."}` in the source (nonempty, every character a dot). -/
def isAllDots (part : String) : Bool :=
  part.toList ≠ [] && part.toList.all (fun c => c = '.')

/-- Whether a string contains a backslash or a slash:
`set(parts[0]) & \x7b"\\", "/"\x7d` being nonempty in the source. -/
def hasSeparator (p : String) : Bool :=
  p.toList.any (fun c => c = '\\' || c = '/')

/-- snekio.FileAttachment.from_dict: convert a dict to an attachment.
Reads `data["name"]` (KeyError if absent), parses it as a path, rejects
absolute paths and first segments containing a separator character
(IndexError when there is no first segment), rejects all-dot segments,
then base64-decodes `data.get("content", "")`. -/
def from_dict (data : TransportDict) : Except Err FileAttachment :=
  match data.name with
  | none => .error .keyError
  | some name =>
    if is_absolute name then .error .illegalPath
    else
      match pathParts name with
      | [] => .error .indexError
      | p0 :: _ =>
        if hasSeparator p0 then .error .illegalPath
        else if (pathParts name).any isAllDots then .error .illegalPath
        else
          match b64decode ((data.content).getD "") with
          | .error e => .error e
          | .ok content => .ok ⟨name, .binary content⟩

/-- A directory entry as seen by `Path.glob` / `Path.is_file` /
`Path.name` / `Path.read_bytes`: its base name, whether it is a regular
file, and its byte contents. -/
structure DirEntry where
  name : String
  isFile : Bool
  content : List Nat
  deriving DecidableEq, Repr

/-- snekio.FileAttachment.from_path: create an attachment from a file
path — the file's base name and its full byte contents. -/
def from_path (file : DirEntry) : FileAttachment :=
  ⟨file.name, .binary file.content⟩

/-- snekio.FileAttachment.size: `len(self.content)` — the Python length
of the content value (characters for `str`, bytes for `bytes`). -/
def size (a : FileAttachment) : Nat :=
  match a.content with
  | .text s => s.length
  | .binary bs => bs.length

/-- UTF-8 encoding of one character (Python `str.encode("utf-8")`). -/
def utf8EncodeChar (c : Char) : List Nat :=
  let n := c.toNat
  if n < 0x80 then [n]
  else if n < 0x800 then [0xC0 + n / 64, 0x80 + n % 64]
  else if n < 0x10000 then
    [0xE0 + n / 4096, 0x80 + n / 64 % 64, 0x80 + n % 64]
  else
    [0xF0 + n / 262144, 0x80 + n / 4096 % 64, 0x80 + n / 64 % 64,
     0x80 + n % 64]

/-- snekio.FileAttachment.as_bytes: binary content unchanged, text
content UTF-8 encoded. -/
def as_bytes (a : FileAttachment) : List Nat :=
  match a.content with
  | .binary bs => bs
  | .text s => s.toList.flatMap utf8EncodeChar

/-- snekio.FileAttachment.to_dict: convert the attachment to a dict
with keys `"path"`, `"size"` and `"content"` (base64 of `as_bytes`). -/
def to_dict (a : FileAttachment) : TransportDict :=
  { path := some a.path
    size := some (size a)
    content := some (b64encode (as_bytes a)) }

/-- Whether a `from_dict` result is a raised `ParsingError`. -/
def is_parsing : Except Err FileAttachment → Bool
  | .error .parsing => true
  | _ => false

/-! ### memfs -/

namespace MemFSOptions

/-- memfs.MemFSOptions.MEMFS_SIZE: size of the memory filesystem. -/
def MEMFS_SIZE : String := "32M"

/-- memfs.MemFSOptions.MAX_FILES: maximum number of files attachments
will be scanned for. -/
def MAX_FILES : Nat := 2

/-- memfs.MemFSOptions.MAX_FILE_SIZE: maximum size of a file
attachment (32 MB). -/
def MAX_FILE_SIZE : Nat := 32 * 1024 * 1024

end MemFSOptions

/-- An argument value of a dynamic Python call: the call site in
`attachments` passes a `Path` and an `int`. -/
inductive PyVal where
  | file (f : DirEntry)
  | int (n : Nat)
  deriving DecidableEq, Repr

/-- Dynamic call of `FileAttachment.from_path` with a positional
argument list: the declared signature `from_path(cls, file)` binds
exactly one argument besides `cls`, so any other arity raises
`TypeError`. -/
def call_from_path : List PyVal → Except Err FileAttachment
  | [.file f] => .ok (from_path f)
  | _ => .error .typeError

/-- memfs.MemoryTempDir.attachments: generator over
`home.glob("output*")` keeping regular files, each element produced by
the call `FileAttachment.from_path(file, MemFSOptions.MAX_FILE_SIZE)`.
The generator is modelled as the list of produced elements; an
exception while producing an element aborts the enumeration with that
error. -/
def attachments : List DirEntry → Except Err (List FileAttachment)
  | [] => .ok []
  | f :: fs =>
    if startsWithChars f.name.toList "output".toList && f.isFile then
      match call_from_path [.file f, .int MemFSOptions.MAX_FILE_SIZE] with
      | .error e => .error e
      | .ok a =>
        match attachments fs with
        | .error e => .error e
        | .ok as => .ok (a :: as)
    else attachments fs

/-- The observable outcome of one run of the `allow_write` context
manager (memfs.py lines 99-104): the root permission mode while the
body runs, the mode after the bracket is left, and the propagated
result of the body. -/
structure WriteBracketRun where
  permDuring : Nat
  permAfter : Nat
  result : Except Err Unit
  deriving Repr

/-- memfs.MemoryTempDir.allow_write: `self.path.chmod(0o777)`, `yield`,
`self.path.chmod(0o555)`.  The generator has no try/finally, so when
the body raises, the exception propagates from the `yield` and the
trailing `chmod(0o555)` never runs. -/
def allow_write (body : Except Err Unit) : WriteBracketRun :=
  { permDuring := 0o777
    permAfter :=
      match body with
      | .ok _ => 0o555
      | .error _ => 0o777
    result := body }

/-- memfs.mount_tmpfs, as it affects the set of existing backing
directories: if the directory does not already exist it is created
(ending at mode 0o711 after the mount); an existing directory is left
alone.  Directory creation and the mount call are modelled as
succeeding. -/
def mount_tmpfs (name : String) (mounted : Finset String) : Finset String :=
  if name ∈ mounted then mounted else insert name mounted

/-- memfs.unmount_tmpfs: if the directory exists, unmount it and
remove the tree with errors ignored; `rmOk` tells whether the removal
actually got rid of the directory (`rmtree(ignore_errors=True)` can
leave it behind). -/
def unmount_tmpfs (name : String) (mounted : Finset String) (rmOk : Bool) :
    Finset String :=
  if name ∈ mounted then (if rmOk then mounted.erase name else mounted)
  else mounted

/-- The data returned by a successful `MemoryTempDir.__enter__`: the
chosen name, the final permission mode of the root, and of `home`. -/
structure EnterOk where
  name : String
  rootPerm : Nat
  homePerm : Nat
  deriving DecidableEq, Repr

/-- The retry loop of memfs.MemoryTempDir.__enter__: `f` supplies the
successive `uuid4()` draws, `idx` counts draws already made, and the
`Nat` argument is the remaining number of the 10 attempts.  A candidate
already in `assigned_names` is retried; the first free candidate is
mounted, the root chmodded to 0o555, `home` created and chmodded to
0o777, and the name added to the pool; exhausting the attempts raises
`RuntimeError`.  Returns the outcome together with the final pool and
the final set of existing directories. -/
def enterAux (f : Nat → String) :
    Finset String → Finset String → Nat → Nat →
    Except Err EnterOk × Finset String × Finset String
  | assigned, mounted, _, 0 => (.error .runtimeError, assigned, mounted)
  | assigned, mounted, idx, r + 1 =>
    let name := f idx
    if name ∈ assigned then enterAux f assigned mounted (idx + 1) r
    else
      (.ok ⟨name, 0o555, 0o777⟩, insert name assigned,
       mount_tmpfs name mounted)

/-- memfs.MemoryTempDir.__enter__: the whole acquisition, 10 attempts
starting from the first draw.  The pool lock is held for the whole
loop; the model is sequential, so the lock does not appear. -/
def enter (f : Nat → String) (assigned mounted : Finset String) :
    Except Err EnterOk × Finset String × Finset String :=
  enterAux f assigned mounted 0 10

/-- memfs.MemoryTempDir.cleanup: a released handle (`path is None`) is
left untouched; otherwise unmount, then remove the name from the pool
only when the root path no longer exists (`set.remove` raises
`KeyError` if the name is not pooled), else log a warning and keep the
name.  Returns the new handle path, pool and directory set. -/
def cleanup (rmOk : Bool) (path : Option String)
    (assigned mounted : Finset String) :
    Except Err (Option String × Finset String × Finset String) :=
  match path with
  | none => .ok (none, assigned, mounted)
  | some name =>
    let mounted' := unmount_tmpfs name mounted rmOk
    if name ∈ mounted' then .ok (none, assigned, mounted')
    else if name ∈ assigned then .ok (none, assigned.erase name, mounted')
    else .error .keyError

/-- Candidate-name draws for the acquisition witness: first draw `"a"`,
later draws `"b"`. -/
def drawAB : Nat → String := fun n => if n = 0 then "a" else "b"

/-! ### Helper lemmas -/

/-- Unfolding `from_dict` on a dictionary whose `name` key is
present. -/
theorem from_dict_some (name : String) (p : Option String) (s : Option Nat)
    (c : Option String) :
    from_dict ⟨some name, p, s, c⟩ =
      (if is_absolute name then .error .illegalPath
       else
         match pathParts name with
         | [] => .error .indexError
         | p0 :: _ =>
           if hasSeparator p0 then .error .illegalPath
           else if (pathParts name).any isAllDots then .error .illegalPath
           else
             match b64decode (c.getD "") with
             | .error e => .error e
             | .ok content => .ok ⟨name, .binary content⟩) := rfl

/-- The only exceptions `b64decode` can raise are `binascii.Error` and
`ValueError`. -/
theorem b64decode_error_cases (s : String) (e : Err)
    (h : b64decode s = .error e) : e = .b64Error ∨ e = .valueError := by
  unfold b64decode at h
  split at h
  · split at h
    · exact absurd h (by simp)
    · cases h; exact Or.inl rfl
  · cases h; exact Or.inr rfl

/-- A run of `'A'` characters is ascii. -/
theorem all_ascii_replicate_A (n : Nat) :
    (List.replicate n 'A').all (fun c => c.toNat < 128) = true := by
  simp only [List.all_eq_true, decide_eq_true_eq]
  intro c hc
  rw [List.eq_of_mem_replicate hc]
  decide

/-- One full quad of `'A'` characters decodes to three zero bytes and
returns the machine to its initial state. -/
theorem a2b_quadA (cs : List Char) (acc : List Nat) :
    a2b_base64 ('A' :: 'A' :: 'A' :: 'A' :: cs) 0 0 0 acc =
      a2b_base64 cs 0 0 0 (0 :: 0 :: 0 :: acc) := rfl

/-- Decoding `4 * k` characters `'A'` yields `3 * k` zero bytes. -/
theorem a2b_replicate_A (k : Nat) :
    ∀ acc : List Nat,
      a2b_base64 (List.replicate (4 * k) 'A') 0 0 0 acc =
        some (acc.reverse ++ List.replicate (3 * k) 0) := by
  induction k with
  | zero => intro acc; simp [a2b_base64]
  | succ k ih =>
    intro acc
    rw [show 4 * (k + 1) = 4 + 4 * k from by omega, List.replicate_add,
        show List.replicate 4 'A' = ['A', 'A', 'A', 'A'] from rfl]
    simp only [List.cons_append, List.nil_append]
    rw [a2b_quadA, ih (0 :: 0 :: 0 :: acc),
        show 3 * (k + 1) = 3 + 3 * k from by omega, List.replicate_add]
    simp [List.replicate]

/-- `b64decode` on a string of `4 * k` characters `'A'`. -/
theorem b64decode_replicate_A (k : Nat) :
    b64decode (String.mk (List.replicate (4 * k) 'A')) =
      .ok (List.replicate (3 * k) 0) := by
  unfold b64decode
  rw [show (String.mk (List.replicate (4 * k) 'A')).toList
        = List.replicate (4 * k) 'A' from rfl,
      all_ascii_replicate_A (4 * k)]
  simp only [if_true]
  rw [a2b_replicate_A k []]
  simp

/-- Unfolding `from_dict` at the valid name `"f"`. -/
theorem from_dict_name_f (c : String) :
    from_dict { name := some "f", content := some c } =
      (match b64decode c with
       | .error e => .error e
       | .ok bs => .ok ⟨"f", .binary bs⟩) := rfl

/-- A two-argument call of `from_path` always raises `TypeError`. -/
theorem call_from_path_two (a b : PyVal) :
    call_from_path [a, b] = .error .typeError := by
  cases a <;> rfl

/-! ### Claims -/

/-- C1: the write-elevation bracket sets the root to mode 0o777 while
the body runs; on normal return of the body it restores 0o555, but when
the body raises, the `chmod(0o555)` after the `yield` never runs (the
generator has no try/finally) and the root stays at 0o777.  The claimed
restore on the failure exit path does not happen. -/
theorem allow_write_restore_skipped_on_raise :
    (∀ e : Err, allow_write (.error e) =
      { permDuring := 0o777, permAfter := 0o777, result := .error e }) ∧
    allow_write (.ok ()) =
      { permDuring := 0o777, permAfter := 0o555, result := .ok () } :=
  ⟨fun _ => rfl, rfl⟩

/-- C2: on a home directory holding one regular file named
`output.txt`, output enumeration does not yield an attachment: the call
`FileAttachment.from_path(file, MemFSOptions.MAX_FILE_SIZE)` passes two
arguments to a one-parameter classmethod and raises `TypeError`. -/
theorem attachments_first_output_file_raises :
    attachments [⟨"output.txt", true, [52, 50]⟩] = .error .typeError := rfl

/-- C3: the round trip `from_dict(to_dict(a))` raises `KeyError` for
every attachment, binary or text: `to_dict` stores the name under the
key `"path"` while `from_dict` reads the key `"name"`. -/
theorem round_trip_raises_key_error :
    ∀ a : FileAttachment, from_dict (to_dict a) = .error .keyError :=
  fun _ => rfl

/-- C5: a malformed base64 content raises `binascii.Error` straight out
of `b64decode`, not `ParsingError`; the error is not an
`AttachmentError`, and no input at all makes `from_dict` raise
`ParsingError`. -/
theorem parsing_error_never_raised :
    from_dict { name := some "f", content := some "abc" } =
      .error .b64Error ∧
    isAttachmentError .b64Error = false ∧
    ∀ d : TransportDict, is_parsing (from_dict d) = false := by
  refine ⟨by decide, rfl, ?_⟩
  intro d
  obtain ⟨n, p, s, c⟩ := d
  cases n with
  | none => rfl
  | some name =>
    rw [from_dict_some]
    split
    · rfl
    · split
      · rfl
      · split
        · rfl
        · split
          · rfl
          · split
            · rename_i e hb
              rcases b64decode_error_cases _ _ hb with rfl | rfl <;> rfl
            · rfl

/-- C6 counterexample: a text attachment with the one non-ascii
character `é` has `size = 1` (Python `len` of the string) while its
binary form is two UTF-8 bytes, so `size` differs from the byte length
of `as_bytes`. -/
theorem size_text_counterexample :
    size ⟨"f", .text "é"⟩ ≠ (as_bytes ⟨"f", .text "é"⟩).length := by decide

/-- C6 amended: `size` is the Python length of the stored content — the
byte length for binary attachments, the character count for text
attachments (which can differ from the UTF-8 byte length). -/
theorem size_is_python_len :
    ∀ (p : String) (bs : List Nat) (s : String),
      size ⟨p, .binary bs⟩ = (as_bytes ⟨p, .binary bs⟩).length ∧
      size ⟨p, .text s⟩ = s.length :=
  fun _ _ _ => ⟨rfl, rfl⟩

/-- C9: a dictionary without a `name` key raises `KeyError`; a `name`
whose path yields no segments (such as the empty string) raises
`IndexError` at `parts[0]`; neither exception is an
`AttachmentError`. -/
theorem from_dict_missing_or_empty_name :
    (∀ (p : Option String) (s : Option Nat) (c : Option String),
      from_dict ⟨none, p, s, c⟩ = .error .keyError) ∧
    (∀ (name : String) (c : Option String),
      is_absolute name = false → pathParts name = [] →
      from_dict ⟨some name, none, none, c⟩ = .error .indexError) ∧
    from_dict { name := some "" } = .error .indexError ∧
    isAttachmentError .keyError = false ∧
    isAttachmentError .indexError = false := by
  refine ⟨fun _ _ _ => rfl, ?_, by decide, rfl, rfl⟩
  intro name c h1 h2
  rw [from_dict_some, h2]
  simp [h1]

/-- C9 witness: the name `"."` normalizes to zero path segments, so
`from_dict` raises `IndexError` on it. -/
theorem from_dict_missing_or_empty_name_witness :
    from_dict ⟨some ".", none, none, none⟩ = .error .indexError :=
  from_dict_missing_or_empty_name.2.1 "." none (by decide) (by decide)

/-- C4: `from_dict` raises `IllegalPathError` whenever the name is
absolute, its first segment contains a separator character, or any
segment is all dots — regardless of the content; it accepts
`out/result.txt` with content `aGVsbG8=`, decoding to the bytes of
`hello`; and an absent `content` key defaults to the empty byte
string. -/
theorem from_dict_validation :
    (∀ (name : String) (d : TransportDict), d.name = some name →
      (is_absolute name = true ∨
       (∃ p0 rest, pathParts name = p0 :: rest ∧ hasSeparator p0 = true) ∨
       (∃ part, part ∈ pathParts name ∧ isAllDots part = true)) →
      from_dict d = .error .illegalPath) ∧
    from_dict { name := some "out/result.txt", content := some "aGVsbG8=" } =
      .ok ⟨"out/result.txt", .binary [104, 101, 108, 108, 111]⟩ ∧
    from_dict { name := some "out/result.txt" } =
      .ok ⟨"out/result.txt", .binary []⟩ := by
  refine ⟨?_, by decide, by decide⟩
  intro name d hd hcond
  obtain ⟨n, p, s, c⟩ := d
  simp only at hd
  subst hd
  rw [from_dict_some]
  by_cases habs : is_absolute name = true
  · simp [habs]
  rcases hcond with h | ⟨p0, rest, hp, hsep⟩ | ⟨part, hmem, hdots⟩
  · exact absurd h habs
  · rw [hp]
    simp [habs, hsep]
  · cases hp : pathParts name with
    | nil => rw [hp] at hmem; exact absurd hmem (List.not_mem_nil part)
    | cons p0 rest =>
      by_cases hsep : hasSeparator p0 = true
      · simp [habs, hsep]
      · have hany : (p0 :: rest).any isAllDots = true := by
          rw [hp] at hmem
          exact List.any_eq_true.mpr ⟨part, hmem, hdots⟩
        simp [habs, hsep, hany]

/-- C4 witness: the name `"../x"` has the all-dot segment `".."` and is
rejected with `IllegalPathError`. -/
theorem from_dict_validation_witness :
    from_dict { name := some "../x" } = .error .illegalPath :=
  from_dict_validation.1 "../x" { name := some "../x" } rfl
    (Or.inr (Or.inr ⟨"..", by decide, by decide⟩))

/-- The acquisition loop of `__enter__`, specified for any start index:
the first free candidate within the remaining attempts is mounted and
pooled; if every candidate within the remaining attempts collides, the
loop raises `RuntimeError` leaving pool and directories untouched. -/
theorem enterAux_spec (f : Nat → String) :
    ∀ (r idx : Nat) (assigned mounted : Finset String),
      (∀ k : Nat, k < r → (∀ j : Nat, j < k → f (idx + j) ∈ assigned) →
        f (idx + k) ∉ assigned →
        enterAux f assigned mounted idx r =
          (.ok ⟨f (idx + k), 0o555, 0o777⟩, insert (f (idx + k)) assigned,
           mount_tmpfs (f (idx + k)) mounted)) ∧
      ((∀ k : Nat, k < r → f (idx + k) ∈ assigned) →
        enterAux f assigned mounted idx r =
          (.error .runtimeError, assigned, mounted)) := by
  intro r
  induction r with
  | zero =>
    intro idx assigned mounted
    exact ⟨fun k hk => absurd hk (by omega), fun _ => rfl⟩
  | succ r ih =>
    intro idx assigned mounted
    constructor
    · intro k hk hpre hfree
      by_cases hm : f idx ∈ assigned
      · have hstep : enterAux f assigned mounted idx (r + 1) =
            enterAux f assigned mounted (idx + 1) r := by
          simp [enterAux, hm]
        rw [hstep]
        cases k with
        | zero => rw [Nat.add_zero] at hfree; exact absurd hm hfree
        | succ k =>
          have e : idx + 1 + k = idx + (k + 1) := by omega
          have h1 := (ih (idx + 1) assigned mounted).1 k (by omega)
            (fun j hj => by
              have e2 : idx + 1 + j = idx + (j + 1) := by omega
              rw [e2]
              exact hpre (j + 1) (by omega))
            (by rw [e]; exact hfree)
          rw [e] at h1
          exact h1
      · have hstep : enterAux f assigned mounted idx (r + 1) =
            (.ok ⟨f idx, 0o555, 0o777⟩, insert (f idx) assigned,
             mount_tmpfs (f idx) mounted) := by
          simp [enterAux, hm]
        cases k with
        | zero => rw [Nat.add_zero]; exact hstep
        | succ k =>
          have h0 : f idx ∈ assigned := by
            have := hpre 0 (by omega)
            rwa [Nat.add_zero] at this
          exact absurd h0 hm
    · intro hall
      have hm : f idx ∈ assigned := by
        have := hall 0 (by omega)
        rwa [Nat.add_zero] at this
      have hstep : enterAux f assigned mounted idx (r + 1) =
          enterAux f assigned mounted (idx + 1) r := by
        simp [enterAux, hm]
      rw [hstep]
      exact (ih (idx + 1) assigned mounted).2 (fun k hk => by
        have e : idx + 1 + k = idx + (k + 1) := by omega
        rw [e]
        exact hall (k + 1) (by omega))

/-- C7: acquisition makes at most 10 draws; at the first draw not in
the pool it mounts the directory, sets the root to 0o555 and `home` to
0o777, inserts the name into the pool and returns the handle; if all 10
draws collide it raises `RuntimeError` with the pool and the directory
set unchanged (no mount, no insertion). -/
theorem enter_first_free_name :
    ∀ (f : Nat → String) (assigned mounted : Finset String),
      (∀ i : Nat, i < 10 → (∀ j : Nat, j < i → f j ∈ assigned) →
        f i ∉ assigned →
        enter f assigned mounted =
          (.ok ⟨f i, 0o555, 0o777⟩, insert (f i) assigned,
           mount_tmpfs (f i) mounted)) ∧
      ((∀ i : Nat, i < 10 → f i ∈ assigned) →
        enter f assigned mounted = (.error .runtimeError, assigned, mounted)) := by
  intro f assigned mounted
  have h := enterAux_spec f 10 0 assigned mounted
  constructor
  · intro i hi hpre hfree
    have h1 := h.1 i hi
      (fun j hj => by rw [Nat.zero_add]; exact hpre j hj)
      (by rw [Nat.zero_add]; exact hfree)
    rw [Nat.zero_add] at h1
    exact h1
  · intro hall
    exact h.2 (fun k hk => by rw [Nat.zero_add]; exact hall k hk)

/-- C7 witness: with pool `{"a"}` and draws `a, b, b, …`, acquisition
succeeds at the second draw; with every draw colliding it raises
`RuntimeError` and changes nothing. -/
theorem enter_first_free_name_witness :
    enter drawAB {"a"} ∅ =
      (.ok ⟨drawAB 1, 0o555, 0o777⟩, insert (drawAB 1) {"a"},
       mount_tmpfs (drawAB 1) ∅) ∧
    enter (fun _ => "a") {"a"} ∅ = (.error .runtimeError, {"a"}, ∅) :=
  ⟨(enter_first_free_name drawAB {"a"} ∅).1 1 (by decide) (by decide)
     (by decide),
   (enter_first_free_name (fun _ => "a") {"a"} ∅).2 (by decide)⟩

/-- C8: releasing an already-released handle is a no-op; otherwise the
name is removed from the pool exactly when the root directory is absent
after the unmount, no error is raised either way, and when the
directory persists the pool is left unchanged. -/
theorem cleanup_pool_iff_exists :
    ∀ (rmOk : Bool) (assigned mounted : Finset String),
      cleanup rmOk none assigned mounted = .ok (none, assigned, mounted) ∧
      ∀ name : String, name ∈ assigned →
        ∃ a2 m2 : Finset String,
          cleanup rmOk (some name) assigned mounted = .ok (none, a2, m2) ∧
          (name ∈ a2 ↔ name ∈ m2) ∧
          (name ∈ m2 → a2 = assigned) := by
  intro rmOk assigned mounted
  refine ⟨rfl, ?_⟩
  intro name h
  by_cases hm : name ∈ unmount_tmpfs name mounted rmOk
  · exact ⟨assigned, unmount_tmpfs name mounted rmOk,
      by simp [cleanup, hm], by simp [h, hm], fun _ => rfl⟩
  · refine ⟨assigned.erase name, unmount_tmpfs name mounted rmOk,
      by simp [cleanup, hm, h], ?_, fun hc => absurd hc hm⟩
    simp [Finset.not_mem_erase, hm]

/-- C8 witness: with name `"a"` pooled and its directory surviving the
removal attempt, release keeps the name; applied at a concrete state. -/
theorem cleanup_pool_iff_exists_witness :
    (∃ a2 m2 : Finset String,
      cleanup false (some "a") {"a"} {"a"} = .ok (none, a2, m2) ∧
      ("a" ∈ a2 ↔ "a" ∈ m2) ∧
      ("a" ∈ m2 → a2 = {"a"})) ∧
    cleanup false none {"a"} ∅ = .ok (none, {"a"}, ∅) :=
  ⟨(cleanup_pool_iff_exists false {"a"} {"a"}).2 "a" (by decide),
   (cleanup_pool_iff_exists false {"a"} ∅).1⟩

/-- C10 counterexample: output enumeration does not yield an Attachment
for a matching regular file — on a home directory with the single
regular file `output.log` it raises `TypeError` instead. -/
theorem attachments_enumeration_counterexample :
    attachments [⟨"output.log", true, [48]⟩] = .error .typeError := rfl

/-- C10 amended: the configured limits exist but protect nothing that
runs: `from_dict` decodes content of any length without a size check
(so content far beyond `MAX_FILE_SIZE` is accepted), and output
enumeration, instead of yielding an unbounded number of attachments,
raises `TypeError` at the first matching regular file because it passes
`MAX_FILE_SIZE` to `from_path`, which takes no size argument. -/
theorem limits_not_enforced_amended :
    MemFSOptions.MAX_FILES = 2 ∧
    MemFSOptions.MAX_FILE_SIZE = 32 * 1024 * 1024 ∧
    (∀ k : Nat,
      from_dict { name := some "f",
                  content := some (String.mk (List.replicate (4 * k) 'A')) } =
        .ok ⟨"f", .binary (List.replicate (3 * k) 0)⟩) ∧
    (∀ f : DirEntry, startsWithChars f.name.toList "output".toList = true →
      f.isFile = true → attachments [f] = .error .typeError) := by
  refine ⟨rfl, rfl, ?_, ?_⟩
  · intro k
    rw [from_dict_name_f, b64decode_replicate_A k]
  · intro f h1 h2
    simp only [attachments, h1, h2, Bool.and_self, if_true,
      call_from_path_two]

/-- C10 witness: a 4-megacharacter content (3 MB decoded) is accepted,
shown at `k = 1` for evaluability, and a matching regular file makes
the enumeration raise. -/
theorem limits_not_enforced_amended_witness :
    from_dict { name := some "f",
                content := some (String.mk (List.replicate (4 * 1) 'A')) } =
      .ok ⟨"f", .binary (List.replicate (3 * 1) 0)⟩ ∧
    attachments [⟨"outputA", true, []⟩] = .error .typeError :=
  ⟨limits_not_enforced_amended.2.2.1 1,
   limits_not_enforced_amended.2.2.2 ⟨"outputA", true, []⟩ (by decide) rfl⟩

end Snekbox
